import Mathlib

/-!
Verification of the repository-location and initialization layer of wyag-trait
(src/src/repo.rs) against its natural-language specification.

The filesystem is shallowly embedded as an explicit association list from paths
(lists of components) to nodes (directories or files with string contents).
All stateful Rust functions become pure Lean functions that take and return the
filesystem state; fallible operations return Except.  I/O-failure branches
return the pre-call state (no claim depends on the partial state left behind by
a failed scaffold step, so that state is not tracked precisely).
-/

namespace Wyag

/-- A filesystem path, as its list of components.  Rust's PathBuf::join with a
single component appends one element; joining a multi-component literal such as
"refs/tags" appends each component. -/
abbrev Path := List String

/-- A filesystem node: a directory or a regular file with its byte contents. -/
inductive Node where
  | dir : Node
  | file : String → Node
  deriving DecidableEq, Repr

/-- The filesystem state: a finite map from paths to nodes, as an association
list (first match wins). -/
structure FS where
  entries : List (Path × Node)
  deriving DecidableEq, Repr

/-- First-match association lookup over filesystem entries. -/
def findEntry (p : Path) : List (Path × Node) → Option Node
  | [] => none
  | e :: rest => if e.1 = p then some e.2 else findEntry p rest

/-- Look up the node stored at a path. -/
def FS.find (fs : FS) (p : Path) : Option Node :=
  findEntry p fs.entries

/-- Store a node at a path, replacing any previous node there. -/
def FS.setNode (fs : FS) (p : Path) (n : Node) : FS :=
  ⟨(p, n) :: fs.entries.filter (fun e => decide (e.1 ≠ p))⟩

/-- Rust Path::exists: some node is present at the path. -/
def FS.pathExists (fs : FS) (p : Path) : Bool :=
  (fs.find p).isSome

/-- Rust Path::is_dir: the path holds a directory. -/
def FS.isDir (fs : FS) (p : Path) : Bool :=
  match fs.find p with
  | some Node.dir => true
  | _ => false

/-- The path holds a regular file. -/
def FS.isFile (fs : FS) (p : Path) : Bool :=
  match fs.find p with
  | some (Node.file _) => true
  | _ => false

/-- Number of direct children of a directory path. -/
def FS.childCount (fs : FS) (p : Path) : Nat :=
  (fs.entries.filter
    (fun e => decide (e.1.take p.length = p) && decide (e.1.length = p.length + 1))).length

/-- Rust fs::read_dir(..).count(): errors when the path is not a directory. -/
def FS.readDirCount (fs : FS) (p : Path) : Except String Nat :=
  if fs.isDir p then .ok (fs.childCount p) else .error "Not a directory (os error 20)"

/-- The nonempty initial segments of a path, shortest first. -/
def pathInits (p : Path) : List Path :=
  (List.range p.length).map (fun i => p.take (i + 1))

/-- Create each listed path as a directory if absent; error when a listed path
holds a regular file (as DirBuilder does). -/
def FS.mkdirs : FS → List Path → Except String FS
  | fs, [] => .ok fs
  | fs, q :: rest =>
    match fs.find q with
    | some Node.dir => FS.mkdirs fs rest
    | some (Node.file _) => .error "File exists (os error 17)"
    | none => FS.mkdirs (fs.setNode q Node.dir) rest

/-- PathHelper::ensure_dir_exists: DirBuilder::new().recursive(true).create,
creating the directory and all missing ancestors. -/
def FS.ensureDirExists (fs : FS) (p : Path) : Except String FS :=
  FS.mkdirs fs (pathInits p)

/-- Rust fs::write: create or truncate a regular file; fails on a directory or
when the parent directory is missing. -/
def FS.write (fs : FS) (p : Path) (content : String) : Except String FS :=
  if fs.isDir p then .error "Is a directory (os error 21)"
  else if p.dropLast.isEmpty || fs.isDir p.dropLast then
    .ok (fs.setNode p (Node.file content))
  else .error "No such file or directory (os error 2)"

/-- The error enum of src/src/repo.rs.  The Rust variant named Io is rendered
here as IoError. -/
inductive Error where
  | NotGitRepository : Path → Error
  | ConfigFileMissing : Error
  | UnsupportedVersion : Option Nat → Error
  | InvalidConfig : String → Error
  | IoError : String → Error
  | NotADirectory : Path → Error
  | NotEmpty : Path → Error
  deriving DecidableEq, Repr

/-- A repository where worktree and gitdir may or may not exist. -/
structure UnvalidatedRepo where
  worktree : Path
  gitdir : Path
  deriving DecidableEq, Repr

/-- Repository::new for UnvalidatedRepo: total path arithmetic, with the Rust
Infallible error type rendered as Empty. -/
def UnvalidatedRepo.new (path : Path) : Except Empty UnvalidatedRepo :=
  .ok ⟨path, path ++ [".git"]⟩

/-- A repository for which validation has succeeded, holding its config. -/
structure Repo (T : Type) where
  inner : UnvalidatedRepo
  config : T
  deriving DecidableEq, Repr

/-- The Config capability of src/src/repo.rs: load a document from a path and
read a typed unsigned integer by section and field. -/
structure ConfigOps (T : Type) where
  load : FS → Path → Except Error T
  getuint : T → String → String → Except Error Nat

/-- TryFrom<UnvalidatedRepo> for Repo<T>: the validation pass. -/
def Repo.tryFrom {T : Type} (C : ConfigOps T) (fs : FS) (inner : UnvalidatedRepo) :
    Except Error (Repo T) :=
  if fs.isDir inner.worktree = false then .error (Error.NotGitRepository inner.worktree)
  else
    match C.load fs (inner.gitdir ++ ["config"]) with
    | .error e => .error e
    | .ok config =>
      match C.getuint config "core" "repositoryformatversion" with
      | .error e => .error e
      | .ok version =>
        if version ≠ 0 then .error (Error.UnsupportedVersion (some version))
        else .ok ⟨inner, config⟩

/-- Repository::new for Repo<T>: resolve the path (the expect on the
Infallible result is the impossible .error branch) and validate. -/
def Repo.new {T : Type} (C : ConfigOps T) (fs : FS) (path : Path) : Except Error (Repo T) :=
  match UnvalidatedRepo.new path with
  | .ok unvalidated => Repo.tryFrom C fs unvalidated
  | .error e => e.elim

/-- An INI document: sections mapping field names to raw string values.
Modelled from the spec (section 4.2): the configparser crate providing the Ini
type is an external dependency, not part of src/. -/
structure Ini where
  sections : List (String × List (String × String))
  deriving DecidableEq, Repr

/-- First-match association lookup by string key. -/
def lookupStr {α : Type} : List (String × α) → String → Option α
  | [], _ => none
  | e :: rest, key => if e.1 = key then some e.2 else lookupStr rest key

/-- Raw string value of a field, if present. -/
def Ini.get (ini : Ini) (sec fld : String) : Option String :=
  match lookupStr ini.sections sec with
  | none => none
  | some kvs => lookupStr kvs fld

/-- Split a character list at newline characters. -/
def splitLines : List Char → List (List Char)
  | [] => [[]]
  | c :: rest =>
    if c = '\n' then [] :: splitLines rest
    else
      match splitLines rest with
      | [] => [[c]]
      | l :: ls => (c :: l) :: ls

/-- Whitespace recognized when trimming a config line. -/
def isSpaceChar (c : Char) : Bool :=
  c = ' ' || c = '\t' || c = '\r'

/-- Drop leading whitespace. -/
def trimL : List Char → List Char
  | [] => []
  | c :: rest => if isSpaceChar c then trimL rest else c :: rest

/-- Drop leading and trailing whitespace. -/
def trimChars (cs : List Char) : List Char :=
  trimL ((trimL cs.reverse).reverse)

/-- Split a line at its first delimiter into key and value parts. -/
def splitKV : List Char → Option (List Char × List Char)
  | [] => none
  | c :: rest =>
    if c = '=' then some ([], rest)
    else
      match splitKV rest with
      | none => none
      | some kv => some (c :: kv.1, kv.2)

/-- The section lists of an INI document. -/
abbrev Sections := List (String × List (String × String))

/-- Record a key/value pair under a section, appending in order. -/
def addKV (secs : Sections) (sec key value : String) : Sections :=
  match secs with
  | [] => [(sec, [(key, value)])]
  | s :: rest =>
    if s.1 = sec then (s.1, s.2 ++ [(key, value)]) :: rest
    else s :: addKV rest sec key value

/-- Modelled from the spec: line-by-line INI parsing as done by the external
configparser crate — section headers in brackets, key = value lines, comments
and blank lines skipped, anything else a parse error. -/
def parseIniGo : List (List Char) → String → Sections → Except String Sections
  | [], _, acc => .ok acc
  | line :: rest, sec, acc =>
    match trimChars line with
    | [] => parseIniGo rest sec acc
    | c :: cs =>
      if c = ';' ∨ c = '#' then parseIniGo rest sec acc
      else if c = '[' then
        match cs.reverse with
        | [] => .error "line of uncategorized format"
        | d :: ds =>
          if d = ']' then parseIniGo rest (String.mk (trimChars ds.reverse)) acc
          else .error "line of uncategorized format"
      else
        match splitKV (c :: cs) with
        | some kv =>
          parseIniGo rest sec (addKV acc sec (String.mk (trimChars kv.1)) (String.mk (trimChars kv.2)))
        | none => .error "line of uncategorized format"

/-- Parse an INI document from file contents. -/
def parseIni (s : String) : Except String Ini :=
  match parseIniGo (splitLines s.data) "default" [] with
  | .ok secs => .ok ⟨secs⟩
  | .error e => .error e

/-- Modelled from the spec: Rust u64 decimal parsing — digits only, value below
2 to the 64th. -/
def parseU64 (s : String) : Option Nat :=
  if s.data.isEmpty then none
  else if s.data.all (fun c => c.isDigit) then
    let v := s.data.foldl (fun acc c => acc * 10 + (c.toNat - 48)) 0
    if v < 2 ^ 64 then some v else none
  else none

/-- Modelled from the spec: the external configparser getuint — ok none when
the field is absent, an error string when present but not an unsigned integer. -/
def Ini.getuintRaw (ini : Ini) (sec fld : String) : Except String (Option Nat) :=
  match Ini.get ini sec fld with
  | none => .ok none
  | some s =>
    match parseU64 s with
    | some v => .ok (some v)
    | none => .error "invalid digit found in string"

/-- Config for Ini::getuint (src/src/repo.rs lines 103-107): parser errors map
to InvalidConfig, an absent field maps to UnsupportedVersion none. -/
def Ini.getuint (ini : Ini) (sec fld : String) : Except Error Nat :=
  match Ini.getuintRaw ini sec fld with
  | .error e => .error (Error.InvalidConfig e)
  | .ok none => .error (Error.UnsupportedVersion none)
  | .ok (some v) => .ok v

/-- Config for Ini::load (src/src/repo.rs lines 90-101): ConfigFileMissing when
nothing exists at the path, InvalidConfig when reading or parsing fails. -/
def Ini.loadConfig (fs : FS) (p : Path) : Except Error Ini :=
  match fs.find p with
  | none => .error Error.ConfigFileMissing
  | some Node.dir => .error (Error.InvalidConfig "Is a directory (os error 21)")
  | some (Node.file content) =>
    match parseIni content with
    | .error e => .error (Error.InvalidConfig e)
    | .ok ini => .ok ini

/-- The Config capability instantiated at Ini, as used by RealRepoCreator. -/
def Ini.configOps : ConfigOps Ini :=
  ⟨Ini.loadConfig, Ini.getuint⟩

/-- Fixed contents of gitdir/description. -/
def descriptionText : String :=
  "Unnamed repository; edit this file \x27description\x27 to name the repository.\n"

/-- Fixed contents of gitdir/HEAD. -/
def headText : String :=
  "ref: refs/heads/master\n"

/-- DefaultConfig rendered to a string (src/src/repo.rs lines 225-236). -/
def defaultConfigText : String :=
  "[core]\nrepositoryformatversion = 0\nfilemode = false\nbare = false\n"

/-- The parsed form of the generated default config document. -/
def defaultIni : Ini :=
  ⟨[("core", [("repositoryformatversion", "0"), ("filemode", "false"), ("bare", "false")])]⟩

/-- The scaffold and default-file steps of RealRepoCreator::create
(src/src/repo.rs lines 202-219): four directories, then three file writes. -/
def scaffoldAndWrite (fs : FS) (repo : UnvalidatedRepo) : Except String FS :=
  match fs.ensureDirExists (repo.gitdir ++ ["branches"]) with
  | .error e => .error e
  | .ok fs1 =>
    match fs1.ensureDirExists (repo.gitdir ++ ["objects"]) with
    | .error e => .error e
    | .ok fs2 =>
      match fs2.ensureDirExists (repo.gitdir ++ ["refs", "tags"]) with
      | .error e => .error e
      | .ok fs3 =>
        match fs3.ensureDirExists (repo.gitdir ++ ["refs", "heads"]) with
        | .error e => .error e
        | .ok fs4 =>
          match fs4.write (repo.gitdir ++ ["description"]) descriptionText with
          | .error e => .error e
          | .ok fs5 =>
            match fs5.write (repo.gitdir ++ ["HEAD"]) headText with
            | .error e => .error e
            | .ok fs6 => fs6.write (repo.gitdir ++ ["config"]) defaultConfigText

/-- Scaffolding, default files, then the closing try_into validation. -/
def finishCreate (fs : FS) (repo : UnvalidatedRepo) : Except Error (Repo Ini) × FS :=
  match scaffoldAndWrite fs repo with
  | .error e => (.error (Error.IoError e), fs)
  | .ok fs2 => (Repo.tryFrom Ini.configOps fs2 repo, fs2)

/-- RealRepoCreator::create (src/src/repo.rs lines 180-222): pre-flight checks
on the worktree and gitdir, scaffold, defaults, final validation. -/
def RealRepoCreator.create (fs : FS) (path : Path) : Except Error (Repo Ini) × FS :=
  match UnvalidatedRepo.new path with
  | .error e => e.elim
  | .ok repo =>
    if fs.pathExists repo.worktree then
      if fs.isDir repo.worktree = false then (.error (Error.NotADirectory repo.worktree), fs)
      else if fs.pathExists repo.gitdir then
        match fs.readDirCount repo.gitdir with
        | .error e => (.error (Error.IoError e), fs)
        | .ok n =>
          if n ≠ 0 then (.error (Error.NotEmpty repo.gitdir), fs)
          else finishCreate fs repo
      else finishCreate fs repo
    else
      match fs.ensureDirExists repo.worktree with
      | .error e => (.error (Error.IoError e), fs)
      | .ok fs1 => finishCreate fs1 repo

/-- Well-formed filesystem: every proper ancestor of a stored path is a
directory.  Real on-disk states always satisfy this. -/
def FS.Wf (fs : FS) : Prop :=
  ∀ e ∈ fs.entries, ∀ i, i < e.1.length - 1 → fs.find (e.1.take (i + 1)) = some Node.dir

/-- The validation facts that hold of a repository value at construction time:
existing worktree directory, successfully loaded config, version read as 0. -/
def ValidatedAt {T : Type} (C : ConfigOps T) (fs : FS) (r : Repo T) : Prop :=
  fs.isDir r.inner.worktree = true ∧
  C.load fs (r.inner.gitdir ++ ["config"]) = .ok r.config ∧
  C.getuint r.config "core" "repositoryformatversion" = .ok 0

/-- Whether a creation or validation result is a success. -/
def isOkRes {T : Type} (res : Except Error T) : Bool :=
  match res with
  | .ok _ => true
  | .error _ => false

/-- Read the version field back out of a creation result, when it succeeded. -/
def resultVersion (res : Except Error (Repo Ini)) : Option (Except Error Nat) :=
  match res with
  | .ok r => some (Ini.getuint r.config "core" "repositoryformatversion")
  | .error _ => none

/-- The membership condition for an extension of a path among the initial
segments of a longer extension of the same path. -/
def ExtCond (s0 t : List String) : Prop :=
  s0.length ≤ t.length ∧ s0 = t.take s0.length

/-- Fixture: a validated-looking location whose config declares version 1
(Scenario B of the spec). -/
def fsScenarioB : FS :=
  ⟨[(["r"], Node.dir), (["r", ".git"], Node.dir),
    (["r", ".git", "config"], Node.file "[core]\nrepositoryformatversion = 1\n")]⟩

/-- The parsed form of the Scenario B config document. -/
def iniScenarioB : Ini :=
  ⟨[("core", [("repositoryformatversion", "1")])]⟩

/-- Fixture: a validated-looking location whose config is the default
document generated by create. -/
def fsValidZero : FS :=
  ⟨[(["r"], Node.dir), (["r", ".git"], Node.dir),
    (["r", ".git", "config"], Node.file defaultConfigText)]⟩

/-- Fixture: a config document whose version field is not numeric. -/
def iniBadField : Ini :=
  ⟨[("core", [("repositoryformatversion", "abc")])]⟩

/-- Fixture: a worktree whose metadata directory already holds an entry. -/
def fsNonEmptyGit : FS :=
  ⟨[(["w"], Node.dir), (["w", ".git"], Node.dir),
    (["w", ".git", "HEAD"], Node.file "x")]⟩

/-- Fixture: a path occupied by a regular file. -/
def fsPlainFile : FS :=
  ⟨[(["f"], Node.file "x")]⟩

/-- An existing directory also passes the existence check. -/
theorem FS.pathExists_of_isDir {fs : FS} {p : Path} (h : fs.isDir p = true) :
    fs.pathExists p = true := by
  unfold FS.isDir at h
  unfold FS.pathExists
  cases hf : fs.find p with
  | none => rw [hf] at h; simp at h
  | some n => simp [hf]

/-- An existing regular file also passes the existence check. -/
theorem FS.pathExists_of_isFile {fs : FS} {p : Path} (h : fs.isFile p = true) :
    fs.pathExists p = true := by
  unfold FS.isFile at h
  unfold FS.pathExists
  cases hf : fs.find p with
  | none => rw [hf] at h; simp at h
  | some n => simp [hf]

/-- A path holding a regular file is not a directory. -/
theorem FS.isDir_eq_false_of_isFile {fs : FS} {p : Path} (h : fs.isFile p = true) :
    fs.isDir p = false := by
  unfold FS.isFile at h
  unfold FS.isDir
  cases hf : fs.find p with
  | none => rfl
  | some n =>
    rw [hf] at h
    cases n with
    | dir => simp at h
    | file c => rfl

/-- Inversion of a successful validation: the checks that must have passed. -/
theorem tryFrom_ok_inv {T : Type} (C : ConfigOps T) (fs : FS) (inner : UnvalidatedRepo)
    (r : Repo T) (h : Repo.tryFrom C fs inner = .ok r) :
    fs.isDir inner.worktree = true ∧ r.inner = inner ∧
    C.load fs (inner.gitdir ++ ["config"]) = .ok r.config ∧
    C.getuint r.config "core" "repositoryformatversion" = .ok 0 := by
  unfold Repo.tryFrom at h
  split at h
  · simp at h
  · rename_i hdir
    rw [Bool.not_eq_false] at hdir
    split at h
    · simp at h
    · rename_i config hload
      split at h
      · simp at h
      · rename_i version hget
        split at h
        · simp at h
        · rename_i hv
          push_neg at hv
          subst hv
          injection h with h2
          subst h2
          exact ⟨hdir, rfl, hload, hget⟩

/-- Inversion of the closing step of creation. -/
theorem finishCreate_ok_inv (fs : FS) (repo : UnvalidatedRepo) (r : Repo Ini) (fs2 : FS)
    (h : finishCreate fs repo = (.ok r, fs2)) :
    Repo.tryFrom Ini.configOps fs2 repo = .ok r := by
  unfold finishCreate at h
  split at h
  · simp at h
  · rename_i fs3 hs
    rw [Prod.mk.injEq] at h
    rw [← h.2]
    exact h.1

/-- Every successful create went through the final try_into validation against
the filesystem state it returns. -/
theorem create_ok_inv (fs : FS) (path : Path) (r : Repo Ini) (fs2 : FS)
    (h : RealRepoCreator.create fs path = (.ok r, fs2)) :
    Repo.tryFrom Ini.configOps fs2 ⟨path, path ++ [".git"]⟩ = .ok r := by
  unfold RealRepoCreator.create UnvalidatedRepo.new at h
  simp only [] at h
  split at h
  · split at h
    · simp at h
    · split at h
      · split at h
        · simp at h
        · split at h
          · simp at h
          · exact finishCreate_ok_inv _ _ _ _ h
      · exact finishCreate_ok_inv _ _ _ _ h
  · split at h
    · simp at h
    · exact finishCreate_ok_inv _ _ _ _ h

/-- Unfolding equation of the entry lookup at a cons cell. -/
theorem findEntry_cons (p : Path) (e : Path × Node) (l : List (Path × Node)) :
    findEntry p (e :: l) = if e.1 = p then some e.2 else findEntry p l := rfl

/-- Filtering out the entries at one path does not change lookups at other
paths. -/
theorem findEntry_filter_ne {p q : Path} (h : q ≠ p) (l : List (Path × Node)) :
    findEntry q (l.filter (fun e => decide (e.1 ≠ p))) = findEntry q l := by
  induction l with
  | nil => rfl
  | cons e rest ih =>
    by_cases hep : e.1 = p
    · rw [List.filter_cons, if_neg (by simp [hep])]
      rw [ih, findEntry_cons]
      rw [if_neg (by rw [hep]; exact fun hh => h hh.symm)]
    · rw [List.filter_cons, if_pos (by simp [hep])]
      rw [findEntry_cons, findEntry_cons, ih]

/-- Lookup after storing a node. -/
theorem find_setNode (fs : FS) (p : Path) (n : Node) (q : Path) :
    (fs.setNode p n).find q = if q = p then some n else fs.find q := by
  unfold FS.setNode FS.find
  show findEntry q ((p, n) :: _) = _
  rw [findEntry_cons]
  by_cases h : q = p
  · subst h
    rw [if_pos rfl, if_pos rfl]
  · rw [if_neg h, if_neg (fun hh => h hh.symm)]
    exact findEntry_filter_ne h fs.entries

/-- A successful lookup names a stored entry. -/
theorem findEntry_mem {q : Path} {n : Node} :
    ∀ l : List (Path × Node), findEntry q l = some n → (q, n) ∈ l := by
  intro l
  induction l with
  | nil => intro h; exact Option.noConfusion h
  | cons e rest ih =>
    intro h
    unfold findEntry at h
    by_cases he : e.1 = q
    · rw [if_pos he] at h
      injection h with h2
      have : e = (q, n) := by
        obtain ⟨e1, e2⟩ := e
        simp only at he h2
        rw [he, h2]
      rw [← this]
      exact List.mem_cons_self e rest
    · rw [if_neg he] at h
      exact List.mem_cons_of_mem _ (ih h)

/-- In a well-formed filesystem, nothing exists strictly below an absent
path (nor at it). -/
theorem wf_find_none_extend {fs : FS} (hwf : fs.Wf) {p : Path} (h0 : fs.find p = none)
    (hne : p ≠ []) : ∀ q, q.take p.length = p → fs.find q = none := by
  intro q hq
  by_cases hqp : q = p
  · subst hqp; exact h0
  · cases hfq : fs.find q with
    | none => rfl
    | some n =>
      exfalso
      have hmem := findEntry_mem _ hfq
      have hlen : p.length < q.length := by
        by_contra hle
        push_neg at hle
        rw [List.take_of_length_le hle] at hq
        exact hqp hq
      have hplen : 0 < p.length := List.length_pos.mpr hne
      have hdir := hwf (q, n) hmem (p.length - 1) (by simp only; omega)
      simp only at hdir
      rw [Nat.sub_add_cancel hplen, hq, h0] at hdir
      exact Option.noConfusion hdir

/-- Characterization of the nonempty initial segments of a path. -/
theorem mem_pathInits {q p : Path} :
    q ∈ pathInits p ↔ 0 < q.length ∧ q.length ≤ p.length ∧ q = p.take q.length := by
  unfold pathInits
  simp only [List.mem_map, List.mem_range]
  constructor
  · rintro ⟨i, hi, rfl⟩
    have hlen : (p.take (i + 1)).length = i + 1 := by
      rw [List.length_take]; omega
    refine ⟨by omega, by omega, ?_⟩
    rw [hlen]
  · rintro ⟨h1, h2, h3⟩
    refine ⟨q.length - 1, by omega, ?_⟩
    rw [Nat.sub_add_cancel h1]
    exact h3.symm

/-- Membership of a path extension among the initial segments of a longer
extension reduces to a condition on the two suffixes alone. -/
theorem mem_ext_pathInits {path : Path} (hne : path ≠ []) (s0 t : List String) :
    ((path ++ s0) ∈ pathInits (path ++ t)) ↔ ExtCond s0 t := by
  have hp : 0 < path.length := List.length_pos.mpr hne
  rw [mem_pathInits]
  unfold ExtCond
  simp only [List.length_append]
  constructor
  · rintro ⟨h1, h2, h3⟩
    rw [List.take_append s0.length] at h3
    exact ⟨by omega, List.append_cancel_left h3⟩
  · rintro ⟨h1, h2⟩
    refine ⟨by omega, by omega, ?_⟩
    rw [List.take_append s0.length]
    rw [← h2]

/-- Membership of a path extension among the initial segments of the path
itself holds only for the empty suffix. -/
theorem mem_self_pathInits {path : Path} (hne : path ≠ []) (s0 : List String) :
    ((path ++ s0) ∈ pathInits path) ↔ s0 = [] := by
  have h := mem_ext_pathInits hne s0 []
  rw [List.append_nil] at h
  rw [h]
  unfold ExtCond
  constructor
  · rintro ⟨h1, h2⟩
    simp only [List.length_nil, Nat.le_zero, List.length_eq_zero] at h1
    exact h1
  · rintro rfl
    exact ⟨by simp, by simp⟩

/-- Running the recursive directory creation over a list of paths none of
which holds a file: it succeeds, turning exactly the absent listed paths into
directories. -/
theorem mkdirs_ok : ∀ (ps : List Path) (fs : FS), (∀ q ∈ ps, fs.isFile q = false) →
    ∃ fs2, FS.mkdirs fs ps = .ok fs2 ∧
      ∀ x, fs2.find x = if x ∈ ps ∧ fs.find x = none then some Node.dir else fs.find x := by
  intro ps
  induction ps with
  | nil =>
    intro fs _
    refine ⟨fs, rfl, ?_⟩
    intro x
    simp
  | cons q rest ih =>
    intro fs h
    cases hq : fs.find q with
    | none =>
      have hcond : ∀ r ∈ rest, (fs.setNode q Node.dir).isFile r = false := by
        intro r hr
        unfold FS.isFile
        rw [find_setNode]
        by_cases hrq : r = q
        · rw [if_pos hrq]
        · rw [if_neg hrq]
          have := h r (List.mem_cons_of_mem _ hr)
          unfold FS.isFile at this
          exact this
      obtain ⟨fs2, hrun, hchar⟩ := ih (fs.setNode q Node.dir) hcond
      refine ⟨fs2, ?_, ?_⟩
      · rw [FS.mkdirs, hq]
        exact hrun
      · intro x
        rw [hchar x, find_setNode]
        by_cases hxq : x = q
        · subst hxq
          simp [hq]
        · simp only [if_neg hxq, List.mem_cons]
          by_cases hxr : x ∈ rest <;> by_cases hxn : fs.find x = none <;>
            simp [hxr, hxn, hxq]
    | some n =>
      cases n with
      | dir =>
        obtain ⟨fs2, hrun, hchar⟩ := ih fs (fun r hr => h r (List.mem_cons_of_mem _ hr))
        refine ⟨fs2, ?_, ?_⟩
        · rw [FS.mkdirs, hq]
          exact hrun
        · intro x
          rw [hchar x]
          by_cases hxq : x = q
          · subst hxq
            simp [hq]
          · simp only [List.mem_cons]
            by_cases hxr : x ∈ rest <;> by_cases hxn : fs.find x = none <;>
              simp [hxr, hxn, hxq]
      | file c =>
        exfalso
        have := h q (List.mem_cons_self q rest)
        unfold FS.isFile at this
        rw [hq] at this
        simp at this

/-- Two successive directory-creation characterizations compose. -/
theorem char_trans {fs fs1 fs2 : FS} {ps qs : List Path}
    (h1 : ∀ x, fs1.find x = if x ∈ ps ∧ fs.find x = none then some Node.dir else fs.find x)
    (h2 : ∀ x, fs2.find x = if x ∈ qs ∧ fs1.find x = none then some Node.dir else fs1.find x) :
    ∀ x, fs2.find x = if x ∈ ps ++ qs ∧ fs.find x = none then some Node.dir else fs.find x := by
  intro x
  rw [h2, h1]
  by_cases hps : x ∈ ps <;> by_cases hqs : x ∈ qs <;> by_cases hn : fs.find x = none <;>
    simp [hps, hqs, hn, List.mem_append]

/-- Directory creation never adds or removes regular files. -/
theorem char_isFile {fs fs1 : FS} {ps : List Path}
    (h1 : ∀ x, fs1.find x = if x ∈ ps ∧ fs.find x = none then some Node.dir else fs.find x) :
    ∀ x, fs1.isFile x = fs.isFile x := by
  intro x
  unfold FS.isFile
  rw [h1 x]
  by_cases hc : x ∈ ps ∧ fs.find x = none
  · rw [if_pos hc, hc.2]
  · rw [if_neg hc]

/-- A stored entry directly below a directory makes its child count positive. -/
theorem childCount_pos {fs : FS} {p q : Path} {n : Node} (hfind : fs.find q = some n)
    (htake : q.take p.length = p) (hlen : q.length = p.length + 1) :
    fs.childCount p ≠ 0 := by
  have hmem := findEntry_mem _ hfind
  unfold FS.childCount
  have hmf : (q, n) ∈ fs.entries.filter
      (fun e => decide (e.1.take p.length = p) && decide (e.1.length = p.length + 1)) := by
    rw [List.mem_filter]
    exact ⟨hmem, by simp [htake, hlen]⟩
  intro hzero
  rw [List.length_eq_zero] at hzero
  rw [hzero] at hmf
  exact List.not_mem_nil _ hmf

/-- Parse of the generated default config document. -/
theorem parse_default : parseIni defaultConfigText = .ok defaultIni := rfl

/-- Version read of the parsed default config document. -/
theorem getuint_default :
    Ini.getuint defaultIni "core" "repositoryformatversion" = .ok 0 := rfl

/-- Appending a nonempty suffix moves a path strictly away from itself. -/
theorem ne_append_of_ne_nil {path : Path} (s0 : List String) (hs0 : s0 ≠ []) :
    path ≠ path ++ s0 := by
  intro h
  have h2 := congrArg List.length h
  rw [List.length_append] at h2
  have h3 : s0.length = 0 := by omega
  exact hs0 (List.eq_nil_of_length_eq_zero h3)

/-- Distinct suffixes give distinct extensions of the same path. -/
theorem ne_ext {path : Path} (a b : List String) (hab : a ≠ b) :
    path ++ a ≠ path ++ b :=
  fun h => hab (List.append_cancel_left h)

/-- dropLast distributes over append with a nonempty right part. -/
theorem dropLast_append_ne_nil {l₂ : List String} (l₁ : List String) (h : l₂ ≠ []) :
    (l₁ ++ l₂).dropLast = l₁ ++ l₂.dropLast :=
  List.dropLast_append_of_ne_nil l₁ h

/-- Running create against a fresh path (absent from a well-formed filesystem,
with no regular file among its ancestors): it succeeds, returns the validated
repository carrying the resolved path pair and the parsed default config, and
the resulting state holds the full scaffold and the three default files. -/
theorem create_fresh (fs : FS) (path : Path) (hwf : fs.Wf) (h0 : fs.find path = none)
    (hanc : ∀ i, i < path.length → fs.isFile (path.take (i + 1)) = false)
    (hne : path ≠ []) :
    ∃ fs2 : FS,
      RealRepoCreator.create fs path =
        (.ok ⟨⟨path, path ++ [".git"]⟩, defaultIni⟩, fs2) ∧
      fs2.isDir path = true ∧
      fs2.isDir (path ++ [".git"]) = true ∧
      fs2.isDir (path ++ [".git", "branches"]) = true ∧
      fs2.isDir (path ++ [".git", "objects"]) = true ∧
      fs2.isDir (path ++ [".git", "refs", "tags"]) = true ∧
      fs2.isDir (path ++ [".git", "refs", "heads"]) = true ∧
      fs2.find (path ++ [".git", "description"]) = some (Node.file descriptionText) ∧
      fs2.find (path ++ [".git", "HEAD"]) = some (Node.file headText) ∧
      fs2.find (path ++ [".git", "config"]) = some (Node.file defaultConfigText) ∧
      fs2.childCount (path ++ [".git"]) ≠ 0 := by
  have hp : 0 < path.length := List.length_pos.mpr hne
  have hext : ∀ s0 : List String, fs.find (path ++ s0) = none := fun s0 =>
    wf_find_none_extend hwf h0 hne (path ++ s0) (List.take_left path s0)
  have hfile_all : ∀ (t : List String), ∀ q ∈ pathInits (path ++ t), fs.isFile q = false := by
    intro t q hq
    rw [mem_pathInits] at hq
    obtain ⟨hq1, hq2, hq3⟩ := hq
    by_cases hlen : q.length ≤ path.length
    · have hqtake : q = path.take q.length := by
        conv_lhs => rw [hq3]
        rw [List.take_append_of_le_length hlen]
      have hres := hanc (q.length - 1) (by omega)
      rw [Nat.sub_add_cancel hq1] at hres
      rw [hqtake]
      exact hres
    · push_neg at hlen
      have htake : q.take path.length = path := by
        rw [hq3, List.take_take, Nat.min_eq_left (Nat.le_of_lt hlen), List.take_left]
      unfold FS.isFile
      rw [wf_find_none_extend hwf h0 hne q htake]
  -- worktree creation
  have hcond0 : ∀ q ∈ pathInits path, fs.isFile q = false := by
    intro q hq
    apply hfile_all []
    rw [List.append_nil]
    exact hq
  obtain ⟨fsA, hrunA, hcharA⟩ := mkdirs_ok (pathInits path) fs hcond0
  -- the four scaffold directories
  have hcondB : ∀ q ∈ pathInits (path ++ [".git", "branches"]), fsA.isFile q = false := by
    intro q hq
    rw [char_isFile hcharA q]
    exact hfile_all [".git", "branches"] q hq
  obtain ⟨fsB, hrunB, hcharB0⟩ := mkdirs_ok (pathInits (path ++ [".git", "branches"])) fsA hcondB
  have hcharB := char_trans hcharA hcharB0
  have hcondC : ∀ q ∈ pathInits (path ++ [".git", "objects"]), fsB.isFile q = false := by
    intro q hq
    rw [char_isFile hcharB q]
    exact hfile_all [".git", "objects"] q hq
  obtain ⟨fsC, hrunC, hcharC0⟩ := mkdirs_ok (pathInits (path ++ [".git", "objects"])) fsB hcondC
  have hcharC := char_trans hcharB hcharC0
  have hcondD : ∀ q ∈ pathInits (path ++ [".git", "refs", "tags"]), fsC.isFile q = false := by
    intro q hq
    rw [char_isFile hcharC q]
    exact hfile_all [".git", "refs", "tags"] q hq
  obtain ⟨fsD, hrunD, hcharD0⟩ :=
    mkdirs_ok (pathInits (path ++ [".git", "refs", "tags"])) fsC hcondD
  have hcharD := char_trans hcharC hcharD0
  have hcondE : ∀ q ∈ pathInits (path ++ [".git", "refs", "heads"]), fsD.isFile q = false := by
    intro q hq
    rw [char_isFile hcharD q]
    exact hfile_all [".git", "refs", "heads"] q hq
  obtain ⟨fsE, hrunE, hcharE0⟩ :=
    mkdirs_ok (pathInits (path ++ [".git", "refs", "heads"])) fsD hcondE
  have hcharE := char_trans hcharD hcharE0
  -- lookups in the scaffolded state
  have hmem_path : path ∈ pathInits path := by
    rw [mem_pathInits]
    exact ⟨hp, Nat.le_refl _, (List.take_length path).symm⟩
  have hpathE : fsE.find path = some Node.dir := by
    rw [hcharE path]
    split
    · rfl
    · rename_i hcond
      exact absurd ⟨by simp [List.mem_append, hmem_path], h0⟩ hcond
  have hgdE : fsE.find (path ++ [".git"]) = some Node.dir := by
    rw [hcharE (path ++ [".git"])]
    split
    · rfl
    · rename_i hcond
      refine absurd ⟨?_, hext [".git"]⟩ hcond
      simp only [List.mem_append, mem_self_pathInits hne, mem_ext_pathInits hne, ExtCond]
      decide
  have hbrE : fsE.find (path ++ [".git", "branches"]) = some Node.dir := by
    rw [hcharE (path ++ [".git", "branches"])]
    split
    · rfl
    · rename_i hcond
      refine absurd ⟨?_, hext [".git", "branches"]⟩ hcond
      simp only [List.mem_append, mem_self_pathInits hne, mem_ext_pathInits hne, ExtCond]
      decide
  have hobE : fsE.find (path ++ [".git", "objects"]) = some Node.dir := by
    rw [hcharE (path ++ [".git", "objects"])]
    split
    · rfl
    · rename_i hcond
      refine absurd ⟨?_, hext [".git", "objects"]⟩ hcond
      simp only [List.mem_append, mem_self_pathInits hne, mem_ext_pathInits hne, ExtCond]
      decide
  have hrtE : fsE.find (path ++ [".git", "refs", "tags"]) = some Node.dir := by
    rw [hcharE (path ++ [".git", "refs", "tags"])]
    split
    · rfl
    · rename_i hcond
      refine absurd ⟨?_, hext [".git", "refs", "tags"]⟩ hcond
      simp only [List.mem_append, mem_self_pathInits hne, mem_ext_pathInits hne, ExtCond]
      decide
  have hrhE : fsE.find (path ++ [".git", "refs", "heads"]) = some Node.dir := by
    rw [hcharE (path ++ [".git", "refs", "heads"])]
    split
    · rfl
    · rename_i hcond
      refine absurd ⟨?_, hext [".git", "refs", "heads"]⟩ hcond
      simp only [List.mem_append, mem_self_pathInits hne, mem_ext_pathInits hne, ExtCond]
      decide
  have hd1E : fsE.find (path ++ [".git", "description"]) = none := by
    rw [hcharE (path ++ [".git", "description"])]
    split
    · rename_i hcond
      refine absurd hcond.1 ?_
      simp only [List.mem_append, mem_self_pathInits hne, mem_ext_pathInits hne, ExtCond]
      decide
    · exact hext [".git", "description"]
  have hd2E : fsE.find (path ++ [".git", "HEAD"]) = none := by
    rw [hcharE (path ++ [".git", "HEAD"])]
    split
    · rename_i hcond
      refine absurd hcond.1 ?_
      simp only [List.mem_append, mem_self_pathInits hne, mem_ext_pathInits hne, ExtCond]
      decide
    · exact hext [".git", "HEAD"]
  have hd3E : fsE.find (path ++ [".git", "config"]) = none := by
    rw [hcharE (path ++ [".git", "config"])]
    split
    · rename_i hcond
      refine absurd hcond.1 ?_
      simp only [List.mem_append, mem_self_pathInits hne, mem_ext_pathInits hne, ExtCond]
      decide
    · exact hext [".git", "config"]
  have hgdDirE : fsE.isDir (path ++ [".git"]) = true := by
    unfold FS.isDir
    rw [hgdE]
  -- the three file writes
  have hdl1 : (path ++ [".git", "description"]).dropLast = path ++ [".git"] :=
    dropLast_append_ne_nil path (by simp)
  have hdl2 : (path ++ [".git", "HEAD"]).dropLast = path ++ [".git"] :=
    dropLast_append_ne_nil path (by simp)
  have hdl3 : (path ++ [".git", "config"]).dropLast = path ++ [".git"] :=
    dropLast_append_ne_nil path (by simp)
  have hw1 : fsE.write (path ++ [".git", "description"]) descriptionText =
      Except.ok (fsE.setNode (path ++ [".git", "description"]) (Node.file descriptionText)) := by
    have hnd : fsE.isDir (path ++ [".git", "description"]) = false := by
      unfold FS.isDir
      rw [hd1E]
    simp [FS.write, hnd, hdl1, hgdDirE]
  have hfindF : ∀ x, x ≠ path ++ [".git", "description"] →
      (fsE.setNode (path ++ [".git", "description"]) (Node.file descriptionText)).find x =
        fsE.find x := by
    intro x hx
    rw [find_setNode, if_neg hx]
  have hw2 : (fsE.setNode (path ++ [".git", "description"]) (Node.file descriptionText)).write
      (path ++ [".git", "HEAD"]) headText =
      Except.ok ((fsE.setNode (path ++ [".git", "description"])
        (Node.file descriptionText)).setNode (path ++ [".git", "HEAD"]) (Node.file headText)) := by
    have hnd : (fsE.setNode (path ++ [".git", "description"])
        (Node.file descriptionText)).isDir (path ++ [".git", "HEAD"]) = false := by
      unfold FS.isDir
      rw [hfindF _ (ne_ext _ _ (by decide)), hd2E]
    have hpar : (fsE.setNode (path ++ [".git", "description"])
        (Node.file descriptionText)).isDir (path ++ [".git"]) = true := by
      unfold FS.isDir
      rw [hfindF _ (ne_ext _ _ (by decide)), hgdE]
    simp [FS.write, hnd, hdl2, hpar]
  have hfindG : ∀ x, x ≠ path ++ [".git", "HEAD"] → x ≠ path ++ [".git", "description"] →
      (((fsE.setNode (path ++ [".git", "description"]) (Node.file descriptionText)).setNode
        (path ++ [".git", "HEAD"]) (Node.file headText))).find x = fsE.find x := by
    intro x hx2 hx1
    rw [find_setNode, if_neg hx2, find_setNode, if_neg hx1]
  have hw3 : (((fsE.setNode (path ++ [".git", "description"]) (Node.file descriptionText)).setNode
      (path ++ [".git", "HEAD"]) (Node.file headText))).write
      (path ++ [".git", "config"]) defaultConfigText =
      Except.ok ((((fsE.setNode (path ++ [".git", "description"])
        (Node.file descriptionText)).setNode
        (path ++ [".git", "HEAD"]) (Node.file headText))).setNode
        (path ++ [".git", "config"]) (Node.file defaultConfigText)) := by
    have hnd : (((fsE.setNode (path ++ [".git", "description"])
        (Node.file descriptionText)).setNode
        (path ++ [".git", "HEAD"]) (Node.file headText))).isDir
        (path ++ [".git", "config"]) = false := by
      unfold FS.isDir
      rw [hfindG _ (ne_ext _ _ (by decide)) (ne_ext _ _ (by decide)), hd3E]
    have hpar : (((fsE.setNode (path ++ [".git", "description"])
        (Node.file descriptionText)).setNode
        (path ++ [".git", "HEAD"]) (Node.file headText))).isDir (path ++ [".git"]) = true := by
      unfold FS.isDir
      rw [hfindG _ (ne_ext _ _ (by decide)) (ne_ext _ _ (by decide)), hgdE]
    simp [FS.write, hnd, hdl3, hpar]
  -- the final state
  have hfindH : ∀ x, x ≠ path ++ [".git", "config"] → x ≠ path ++ [".git", "HEAD"] →
      x ≠ path ++ [".git", "description"] →
      ((((fsE.setNode (path ++ [".git", "description"]) (Node.file descriptionText)).setNode
        (path ++ [".git", "HEAD"]) (Node.file headText))).setNode
        (path ++ [".git", "config"]) (Node.file defaultConfigText)).find x = fsE.find x := by
    intro x hx3 hx2 hx1
    rw [find_setNode, if_neg hx3, find_setNode, if_neg hx2, find_setNode, if_neg hx1]
  have hfin_path : ((((fsE.setNode (path ++ [".git", "description"])
      (Node.file descriptionText)).setNode
      (path ++ [".git", "HEAD"]) (Node.file headText))).setNode
      (path ++ [".git", "config"]) (Node.file defaultConfigText)).find path = some Node.dir := by
    rw [hfindH path (ne_append_of_ne_nil _ (by decide)) (ne_append_of_ne_nil _ (by decide))
      (ne_append_of_ne_nil _ (by decide)), hpathE]
  have hfin_gd : ((((fsE.setNode (path ++ [".git", "description"])
      (Node.file descriptionText)).setNode
      (path ++ [".git", "HEAD"]) (Node.file headText))).setNode
      (path ++ [".git", "config"]) (Node.file defaultConfigText)).find (path ++ [".git"]) =
      some Node.dir := by
    rw [hfindH _ (ne_ext _ _ (by decide)) (ne_ext _ _ (by decide)) (ne_ext _ _ (by decide)), hgdE]
  have hfin_d1 : ((((fsE.setNode (path ++ [".git", "description"])
      (Node.file descriptionText)).setNode
      (path ++ [".git", "HEAD"]) (Node.file headText))).setNode
      (path ++ [".git", "config"]) (Node.file defaultConfigText)).find
      (path ++ [".git", "description"]) = some (Node.file descriptionText) := by
    rw [find_setNode, if_neg (ne_ext _ _ (by decide)), find_setNode,
      if_neg (ne_ext _ _ (by decide)), find_setNode, if_pos rfl]
  have hfin_d2 : ((((fsE.setNode (path ++ [".git", "description"])
      (Node.file descriptionText)).setNode
      (path ++ [".git", "HEAD"]) (Node.file headText))).setNode
      (path ++ [".git", "config"]) (Node.file defaultConfigText)).find
      (path ++ [".git", "HEAD"]) = some (Node.file headText) := by
    rw [find_setNode, if_neg (ne_ext _ _ (by decide)), find_setNode, if_pos rfl]
  have hfin_d3 : ((((fsE.setNode (path ++ [".git", "description"])
      (Node.file descriptionText)).setNode
      (path ++ [".git", "HEAD"]) (Node.file headText))).setNode
      (path ++ [".git", "config"]) (Node.file defaultConfigText)).find
      (path ++ [".git", "config"]) = some (Node.file defaultConfigText) := by
    rw [find_setNode, if_pos rfl]
  -- the closing validation succeeds
  have hload8 : Ini.loadConfig ((((fsE.setNode (path ++ [".git", "description"])
      (Node.file descriptionText)).setNode
      (path ++ [".git", "HEAD"]) (Node.file headText))).setNode
      (path ++ [".git", "config"]) (Node.file defaultConfigText))
      (path ++ [".git", "config"]) = .ok defaultIni := by
    unfold Ini.loadConfig
    rw [hfin_d3]
    rfl
  have hdir8 : ((((fsE.setNode (path ++ [".git", "description"])
      (Node.file descriptionText)).setNode
      (path ++ [".git", "HEAD"]) (Node.file headText))).setNode
      (path ++ [".git", "config"]) (Node.file defaultConfigText)).isDir path = true := by
    unfold FS.isDir
    rw [hfin_path]
  have htry : Repo.tryFrom Ini.configOps ((((fsE.setNode (path ++ [".git", "description"])
      (Node.file descriptionText)).setNode
      (path ++ [".git", "HEAD"]) (Node.file headText))).setNode
      (path ++ [".git", "config"]) (Node.file defaultConfigText)) ⟨path, path ++ [".git"]⟩ =
      Except.ok ⟨⟨path, path ++ [".git"]⟩, defaultIni⟩ := by
    simp [Repo.tryFrom, Ini.configOps, hdir8, hload8, getuint_default]
  -- assemble the run of create
  have hpe : fs.pathExists path = false := by
    unfold FS.pathExists
    rw [h0]
    rfl
  have hrunA' : fs.ensureDirExists path = Except.ok fsA := hrunA
  have f1 : fsA.ensureDirExists (path ++ [".git", "branches"]) = Except.ok fsB := hrunB
  have f2 : fsB.ensureDirExists (path ++ [".git", "objects"]) = Except.ok fsC := hrunC
  have f3 : fsC.ensureDirExists (path ++ [".git", "refs", "tags"]) = Except.ok fsD := hrunD
  have f4 : fsD.ensureDirExists (path ++ [".git", "refs", "heads"]) = Except.ok fsE := hrunE
  have hsw : scaffoldAndWrite fsA ⟨path, path ++ [".git"]⟩ =
      Except.ok ((((fsE.setNode (path ++ [".git", "description"])
        (Node.file descriptionText)).setNode
        (path ++ [".git", "HEAD"]) (Node.file headText))).setNode
        (path ++ [".git", "config"]) (Node.file defaultConfigText)) := by
    simp [scaffoldAndWrite, f1, f2, f3, f4, hw1, hw2, hw3]
  have hcreate : RealRepoCreator.create fs path =
      (.ok ⟨⟨path, path ++ [".git"]⟩, defaultIni⟩,
        (((fsE.setNode (path ++ [".git", "description"])
          (Node.file descriptionText)).setNode
          (path ++ [".git", "HEAD"]) (Node.file headText))).setNode
          (path ++ [".git", "config"]) (Node.file defaultConfigText)) := by
    simp [RealRepoCreator.create, UnvalidatedRepo.new, hpe, hrunA', finishCreate, hsw, htry]
  refine ⟨_, hcreate, hdir8, ?_, ?_, ?_, ?_, ?_, hfin_d1, hfin_d2, hfin_d3, ?_⟩
  · unfold FS.isDir
    rw [hfin_gd]
  · unfold FS.isDir
    rw [hfindH _ (ne_ext _ _ (by decide)) (ne_ext _ _ (by decide)) (ne_ext _ _ (by decide)), hbrE]
  · unfold FS.isDir
    rw [hfindH _ (ne_ext _ _ (by decide)) (ne_ext _ _ (by decide)) (ne_ext _ _ (by decide)), hobE]
  · unfold FS.isDir
    rw [hfindH _ (ne_ext _ _ (by decide)) (ne_ext _ _ (by decide)) (ne_ext _ _ (by decide)), hrtE]
  · unfold FS.isDir
    rw [hfindH _ (ne_ext _ _ (by decide)) (ne_ext _ _ (by decide)) (ne_ext _ _ (by decide)), hrhE]
  · refine childCount_pos hfin_d1 ?_ ?_
    · show (path ++ [".git", "description"]).take ((path ++ [".git"]).length) = path ++ [".git"]
      have : (path ++ [".git"]).length = path.length + 1 := by
        simp
      rw [this]
      rw [List.take_append]
      rfl
    · simp [List.length_append]
theorem create_nonempty_state (fs : FS) (path : Path)
    (hdir : fs.isDir path = true) (hgitdir : fs.isDir (path ++ [".git"]) = true)
    (hnonempty : fs.childCount (path ++ [".git"]) ≠ 0) :
    RealRepoCreator.create fs path = (.error (Error.NotEmpty (path ++ [".git"])), fs) := by
  have h1 : fs.pathExists path = true := FS.pathExists_of_isDir hdir
  have h2 : fs.pathExists (path ++ [".git"]) = true := FS.pathExists_of_isDir hgitdir
  simp [RealRepoCreator.create, UnvalidatedRepo.new, h1, h2, hdir,
    FS.readDirCount, hgitdir, hnonempty]

/-- Claim C1: for every configuration whose core.repositoryformatversion field
reads as an unsigned integer v with v distinct from 0, the
TryFrom<UnvalidatedRepo> validation fails with UnsupportedVersion (some v),
regardless of any other config contents. -/
theorem c1_version_gate {T : Type} (C : ConfigOps T) (fs : FS) (inner : UnvalidatedRepo)
    (cfg : T) (v : Nat) (hdir : fs.isDir inner.worktree = true)
    (hload : C.load fs (inner.gitdir ++ ["config"]) = .ok cfg)
    (hget : C.getuint cfg "core" "repositoryformatversion" = .ok v) (hv : v ≠ 0) :
    Repo.tryFrom C fs inner = .error (Error.UnsupportedVersion (some v)) := by
  simp [Repo.tryFrom, hdir, hload, hget, hv]

/-- Witness for C1, Scenario B: a config declaring repositoryformatversion = 1
is rejected with UnsupportedVersion (some 1). -/
theorem c1_version_gate_witness :
    Repo.tryFrom Ini.configOps fsScenarioB ⟨["r"], ["r", ".git"]⟩ =
      .error (Error.UnsupportedVersion (some 1)) :=
  c1_version_gate Ini.configOps fsScenarioB ⟨["r"], ["r", ".git"]⟩ iniScenarioB 1
    rfl rfl rfl (by decide)

/-- Claim C6: the typed unsigned-integer lookup fails with InvalidConfig when
the field exists but cannot be coerced to an unsigned integer, and with
UnsupportedVersion none when the field is absent from the document. -/
theorem c6_getuint_errors (ini : Ini) (sec fld : String) :
    (∀ s, Ini.get ini sec fld = some s → parseU64 s = none →
      Ini.getuint ini sec fld = .error (Error.InvalidConfig "invalid digit found in string")) ∧
    (Ini.get ini sec fld = none →
      Ini.getuint ini sec fld = .error (Error.UnsupportedVersion none)) := by
  constructor
  · intro s hs hp
    simp [Ini.getuint, Ini.getuintRaw, hs, hp]
  · intro hs
    simp [Ini.getuint, Ini.getuintRaw, hs]

/-- Witness for C6: a non-numeric version field gives InvalidConfig, a missing
field gives UnsupportedVersion none. -/
theorem c6_getuint_errors_witness :
    Ini.getuint iniBadField "core" "repositoryformatversion" =
      .error (Error.InvalidConfig "invalid digit found in string") ∧
    Ini.getuint iniBadField "core" "bare" = .error (Error.UnsupportedVersion none) :=
  ⟨(c6_getuint_errors iniBadField "core" "repositoryformatversion").1 "abc" rfl rfl,
   (c6_getuint_errors iniBadField "core" "bare").2 rfl⟩

/-- Claim C7: when the worktree is not an existing directory, validation fails
with NotGitRepository carrying that worktree path, for every configuration
capability (so without the configuration ever being consulted). -/
theorem c7_missing_worktree (fs : FS) (path : Path) (h : fs.isDir path = false)
    (T : Type) (C : ConfigOps T) :
    Repo.new C fs path = .error (Error.NotGitRepository path) := by
  simp [Repo.new, UnvalidatedRepo.new, Repo.tryFrom, h]

/-- Witness for C7: validating a path absent from an empty filesystem. -/
theorem c7_missing_worktree_witness :
    Repo.new Ini.configOps ⟨[]⟩ ["a"] = .error (Error.NotGitRepository ["a"]) :=
  c7_missing_worktree ⟨[]⟩ ["a"] rfl Ini Ini.configOps

/-- Claim C8: create against a path that exists as a regular file fails with
NotADirectory carrying the worktree path, with the filesystem unchanged. -/
theorem c8_nondirectory_guard (fs : FS) (path : Path) (h : fs.isFile path = true) :
    RealRepoCreator.create fs path = (.error (Error.NotADirectory path), fs) := by
  have h1 : fs.pathExists path = true := FS.pathExists_of_isFile h
  have h2 : fs.isDir path = false := FS.isDir_eq_false_of_isFile h
  simp [RealRepoCreator.create, UnvalidatedRepo.new, h1, h2]

/-- Witness for C8: create against a one-file filesystem. -/
theorem c8_nondirectory_guard_witness :
    RealRepoCreator.create fsPlainFile ["f"] =
      (.error (Error.NotADirectory ["f"]), fsPlainFile) :=
  c8_nondirectory_guard fsPlainFile ["f"] rfl

/-- Claim C4: create against a worktree directory whose .git directory exists
and contains at least one entry fails with NotEmpty carrying the gitdir, and
the filesystem it returns is exactly the one it was given. -/
theorem c4_nonempty_guard (fs : FS) (path : Path)
    (hdir : fs.isDir path = true) (hgitdir : fs.isDir (path ++ [".git"]) = true)
    (hnonempty : fs.childCount (path ++ [".git"]) ≠ 0) :
    RealRepoCreator.create fs path = (.error (Error.NotEmpty (path ++ [".git"])), fs) :=
  create_nonempty_state fs path hdir hgitdir hnonempty

/-- Witness for C4: create against a worktree whose .git already holds a HEAD
file. -/
theorem c4_nonempty_guard_witness :
    RealRepoCreator.create fsNonEmptyGit ["w"] =
      (.error (Error.NotEmpty (["w"] ++ [".git"])), fsNonEmptyGit) :=
  c4_nonempty_guard fsNonEmptyGit ["w"] rfl rfl (by decide)

/-- Claim C3: create against a fresh path (absent from a well-formed
filesystem, no regular file among its ancestors, path nonempty) succeeds,
creates the branches, objects, refs/tags and refs/heads directories, writes
the three default files with their exact contents, and returns a validated
repository whose config reads core.repositoryformatversion as 0. -/
theorem c3_create_fresh (fs : FS) (path : Path) (hwf : fs.Wf) (h0 : fs.find path = none)
    (hanc : ∀ i, i < path.length → fs.isFile (path.take (i + 1)) = false)
    (hne : path ≠ []) :
    isOkRes (RealRepoCreator.create fs path).1 = true ∧
    resultVersion (RealRepoCreator.create fs path).1 = some (.ok 0) ∧
    (RealRepoCreator.create fs path).2.isDir (path ++ [".git", "branches"]) = true ∧
    (RealRepoCreator.create fs path).2.isDir (path ++ [".git", "objects"]) = true ∧
    (RealRepoCreator.create fs path).2.isDir (path ++ [".git", "refs", "tags"]) = true ∧
    (RealRepoCreator.create fs path).2.isDir (path ++ [".git", "refs", "heads"]) = true ∧
    (RealRepoCreator.create fs path).2.find (path ++ [".git", "description"]) =
      some (Node.file descriptionText) ∧
    (RealRepoCreator.create fs path).2.find (path ++ [".git", "HEAD"]) =
      some (Node.file headText) ∧
    (RealRepoCreator.create fs path).2.find (path ++ [".git", "config"]) =
      some (Node.file defaultConfigText) := by
  obtain ⟨fs2, hc, hdp, hdg, hbr, hob, hrt, hrh, f1, f2, f3, hcc⟩ :=
    create_fresh fs path hwf h0 hanc hne
  rw [hc]
  exact ⟨rfl, rfl, hbr, hob, hrt, hrh, f1, f2, f3⟩

/-- Witness for C3: create at a three-component fresh path in the empty
filesystem (Scenario A). -/
theorem c3_create_fresh_witness :
    isOkRes (RealRepoCreator.create ⟨[]⟩ ["tmp", "x", "test"]).1 = true ∧
    resultVersion (RealRepoCreator.create ⟨[]⟩ ["tmp", "x", "test"]).1 = some (.ok 0) ∧
    (RealRepoCreator.create ⟨[]⟩ ["tmp", "x", "test"]).2.isDir
      ["tmp", "x", "test", ".git", "branches"] = true ∧
    (RealRepoCreator.create ⟨[]⟩ ["tmp", "x", "test"]).2.isDir
      ["tmp", "x", "test", ".git", "objects"] = true ∧
    (RealRepoCreator.create ⟨[]⟩ ["tmp", "x", "test"]).2.isDir
      ["tmp", "x", "test", ".git", "refs", "tags"] = true ∧
    (RealRepoCreator.create ⟨[]⟩ ["tmp", "x", "test"]).2.isDir
      ["tmp", "x", "test", ".git", "refs", "heads"] = true ∧
    (RealRepoCreator.create ⟨[]⟩ ["tmp", "x", "test"]).2.find
      ["tmp", "x", "test", ".git", "description"] = some (Node.file descriptionText) ∧
    (RealRepoCreator.create ⟨[]⟩ ["tmp", "x", "test"]).2.find
      ["tmp", "x", "test", ".git", "HEAD"] = some (Node.file headText) ∧
    (RealRepoCreator.create ⟨[]⟩ ["tmp", "x", "test"]).2.find
      ["tmp", "x", "test", ".git", "config"] = some (Node.file defaultConfigText) :=
  c3_create_fresh ⟨[]⟩ ["tmp", "x", "test"]
    (by intro e he i hi; exact absurd he (List.not_mem_nil e)) rfl (by decide) (by decide)

/-- Counterexample to claim C2 as stated: after a first successful create at a
fresh path, running create again against the same path does not succeed — it
fails with NotEmpty, because the metadata directory now holds entries. -/
theorem c2_counterexample :
    isOkRes (RealRepoCreator.create ⟨[]⟩ ["tmp", "x", "test"]).1 = true ∧
    (RealRepoCreator.create (RealRepoCreator.create ⟨[]⟩ ["tmp", "x", "test"]).2
      ["tmp", "x", "test"]).1 = .error (Error.NotEmpty ["tmp", "x", "test", ".git"]) :=
  ⟨rfl, rfl⟩

/-- Claim C2 (amended): against a fresh path the first create succeeds and
writes the three default files; the second create fails with NotEmpty on the
gitdir and performs no writes, so the config, HEAD and description contents
after the second call are byte-identical to those after the first. -/
theorem c2_create_twice (fs : FS) (path : Path) (hwf : fs.Wf) (h0 : fs.find path = none)
    (hanc : ∀ i, i < path.length → fs.isFile (path.take (i + 1)) = false)
    (hne : path ≠ []) :
    isOkRes (RealRepoCreator.create fs path).1 = true ∧
    (RealRepoCreator.create fs path).2.find (path ++ [".git", "config"]) =
      some (Node.file defaultConfigText) ∧
    (RealRepoCreator.create fs path).2.find (path ++ [".git", "HEAD"]) =
      some (Node.file headText) ∧
    (RealRepoCreator.create fs path).2.find (path ++ [".git", "description"]) =
      some (Node.file descriptionText) ∧
    RealRepoCreator.create (RealRepoCreator.create fs path).2 path =
      (.error (Error.NotEmpty (path ++ [".git"])), (RealRepoCreator.create fs path).2) := by
  obtain ⟨fs2, hc, hdp, hdg, hbr, hob, hrt, hrh, f1, f2, f3, hcc⟩ :=
    create_fresh fs path hwf h0 hanc hne
  rw [hc]
  exact ⟨rfl, f3, f2, f1, create_nonempty_state fs2 path hdp hdg hcc⟩

/-- Witness for the amended C2 at a concrete fresh path. -/
theorem c2_create_twice_witness :
    isOkRes (RealRepoCreator.create ⟨[]⟩ ["tmp", "x", "test"]).1 = true ∧
    (RealRepoCreator.create ⟨[]⟩ ["tmp", "x", "test"]).2.find
      ["tmp", "x", "test", ".git", "config"] = some (Node.file defaultConfigText) ∧
    (RealRepoCreator.create ⟨[]⟩ ["tmp", "x", "test"]).2.find
      ["tmp", "x", "test", ".git", "HEAD"] = some (Node.file headText) ∧
    (RealRepoCreator.create ⟨[]⟩ ["tmp", "x", "test"]).2.find
      ["tmp", "x", "test", ".git", "description"] = some (Node.file descriptionText) ∧
    RealRepoCreator.create (RealRepoCreator.create ⟨[]⟩ ["tmp", "x", "test"]).2
      ["tmp", "x", "test"] =
      (.error (Error.NotEmpty ["tmp", "x", "test", ".git"]),
        (RealRepoCreator.create ⟨[]⟩ ["tmp", "x", "test"]).2) :=
  c2_create_twice ⟨[]⟩ ["tmp", "x", "test"]
    (by intro e he i hi; exact absurd he (List.not_mem_nil e)) rfl (by decide) (by decide)

/-- Claim C9: the path resolver is total with no failure mode and no side
effects: it returns the worktree exactly as given and the gitdir as the
worktree joined with the .git component. -/
theorem c9_path_resolver_total (path : Path) :
    UnvalidatedRepo.new path = .ok ⟨path, path ++ [".git"]⟩ := rfl

/-- Claim C5: every repository value produced by validation (the TryFrom
conversion), by Repository::new, or by create satisfies, against the
filesystem in force at its construction, the validation invariant: existing
worktree directory, successfully loaded config, and version read as exactly 0. -/
theorem c5_validated_invariant :
    (∀ (T : Type) (C : ConfigOps T) (fs : FS) (inner : UnvalidatedRepo) (r : Repo T),
      Repo.tryFrom C fs inner = .ok r → ValidatedAt C fs r) ∧
    (∀ (T : Type) (C : ConfigOps T) (fs : FS) (path : Path) (r : Repo T),
      Repo.new C fs path = .ok r → ValidatedAt C fs r) ∧
    (∀ (fs : FS) (path : Path) (r : Repo Ini) (fs2 : FS),
      RealRepoCreator.create fs path = (.ok r, fs2) → ValidatedAt Ini.configOps fs2 r) := by
  have base : ∀ (T : Type) (C : ConfigOps T) (fs : FS) (inner : UnvalidatedRepo) (r : Repo T),
      Repo.tryFrom C fs inner = .ok r → ValidatedAt C fs r := by
    intro T C fs inner r h
    obtain ⟨hdir, hinner, hload, hget⟩ := tryFrom_ok_inv C fs inner r h
    exact ⟨hinner ▸ hdir, hinner ▸ hload, hget⟩
  refine ⟨base, ?_, ?_⟩
  · intro T C fs path r h
    rw [Repo.new] at h
    exact base T C fs ⟨path, path ++ [".git"]⟩ r h
  · intro fs path r fs2 h
    exact base Ini Ini.configOps fs2 ⟨path, path ++ [".git"]⟩ r (create_ok_inv fs path r fs2 h)

/-- Witness for C5: the invariant holds of the repository validated from the
fixture with a version-0 config. -/
theorem c5_validated_invariant_witness :
    ValidatedAt Ini.configOps fsValidZero ⟨⟨["r"], ["r", ".git"]⟩, defaultIni⟩ :=
  c5_validated_invariant.1 Ini Ini.configOps fsValidZero ⟨["r"], ["r", ".git"]⟩
    ⟨⟨["r"], ["r", ".git"]⟩, defaultIni⟩ rfl

/-- Claim C10: whenever validation or create returns a validated repository,
its inner worktree is exactly the input path and its inner gitdir is that path
joined with .git; the TryFrom conversion preserves the resolved pair as is. -/
theorem c10_path_passthrough :
    (∀ (T : Type) (C : ConfigOps T) (fs : FS) (inner : UnvalidatedRepo) (r : Repo T),
      Repo.tryFrom C fs inner = .ok r → r.inner = inner) ∧
    (∀ (T : Type) (C : ConfigOps T) (fs : FS) (p : Path) (r : Repo T),
      Repo.new C fs p = .ok r → r.inner.worktree = p ∧ r.inner.gitdir = p ++ [".git"]) ∧
    (∀ (fs : FS) (p : Path) (r : Repo Ini) (fs2 : FS),
      RealRepoCreator.create fs p = (.ok r, fs2) →
        r.inner.worktree = p ∧ r.inner.gitdir = p ++ [".git"]) := by
  refine ⟨?_, ?_, ?_⟩
  · intro T C fs inner r h
    exact (tryFrom_ok_inv C fs inner r h).2.1
  · intro T C fs p r h
    rw [Repo.new] at h
    have := (tryFrom_ok_inv C fs ⟨p, p ++ [".git"]⟩ r h).2.1
    rw [this]
    exact ⟨rfl, rfl⟩
  · intro fs p r fs2 h
    have := (tryFrom_ok_inv Ini.configOps fs2 ⟨p, p ++ [".git"]⟩ r
      (create_ok_inv fs p r fs2 h)).2.1
    rw [this]
    exact ⟨rfl, rfl⟩

/-- Witness for C10: the repository validated from the version-0 fixture keeps
the input path pair unchanged. -/
theorem c10_path_passthrough_witness :
    (⟨⟨["r"], ["r", ".git"]⟩, defaultIni⟩ : Repo Ini).inner.worktree = ["r"] ∧
    (⟨⟨["r"], ["r", ".git"]⟩, defaultIni⟩ : Repo Ini).inner.gitdir = ["r"] ++ [".git"] :=
  c10_path_passthrough.2.1 Ini Ini.configOps fsValidZero ["r"]
    ⟨⟨["r"], ["r", ".git"]⟩, defaultIni⟩ rfl

end Wyag
